import Mathlib

/-!
Verification development for the `mech-interact` skill
(`packages/valory/skills/mech_interact_abci`).

The Python modules are shallowly embedded: pure functions become Lean
functions, Python `int` becomes `Int`, Python `float` arithmetic is embedded
into `Rat`/`Real` (exact real arithmetic), fallible code returns `Option` or
`Except`, and the raising of a Python exception is an explicit error value.
Where a piece of the repository is not part of the sources (the
`abstract_round_abci` framework base classes, the `DataclassEncoder` helper,
and the `@todo` stubs of the purchase-subscription orchestration), the
corresponding definition is modelled from the specification and its doc
comment says so.
-/

namespace MechInteract

/-! ## Events and rounds (`rounds.py`, `states/base.py`) -/

/-- `Event` enum from `states/base.py`. -/
inductive Event where
  | DONE
  | NONE
  | V1
  | V2
  | NO_MARKETPLACE
  | NO_MAJORITY
  | ROUND_TIMEOUT
  | SKIP_REQUEST
  | BUY_SUBSCRIPTION
deriving DecidableEq, Repr

/-- The application states (rounds) of `MechInteractAbciApp` (`rounds.py`). -/
inductive Round where
  | MechVersionDetectionRound
  | MechInformationRound
  | MechRequestRound
  | MechPurchaseSubscriptionRound
  | MechResponseRound
  | FinishedMarketplaceLegacyDetectedRound
  | FinishedMechLegacyDetectedRound
  | FinishedMechInformationRound
  | FailedMechInformationRound
  | FinishedMechRequestRound
  | FinishedMechResponseRound
  | FinishedMechResponseTimeoutRound
  | FinishedMechRequestSkipRound
  | FinishedMechPurchaseSubscriptionRound
deriving DecidableEq, Repr, Fintype

open Round Event

/-- `MechInteractAbciApp.transition_function` (`rounds.py`, lines 115-156).
`none` models an event that has no entry in the round's transition dict. -/
def transitionFunction : Round → Event → Option Round
  | MechVersionDetectionRound, V2 => some MechInformationRound
  | MechVersionDetectionRound, V1 => some FinishedMarketplaceLegacyDetectedRound
  | MechVersionDetectionRound, NO_MARKETPLACE => some FinishedMechLegacyDetectedRound
  | MechVersionDetectionRound, NO_MAJORITY => some MechVersionDetectionRound
  | MechVersionDetectionRound, ROUND_TIMEOUT => some MechVersionDetectionRound
  | MechInformationRound, DONE => some FinishedMechInformationRound
  | MechInformationRound, NONE => some FailedMechInformationRound
  | MechInformationRound, NO_MAJORITY => some MechInformationRound
  | MechInformationRound, ROUND_TIMEOUT => some MechInformationRound
  | MechRequestRound, DONE => some FinishedMechRequestRound
  | MechRequestRound, SKIP_REQUEST => some FinishedMechRequestSkipRound
  | MechRequestRound, BUY_SUBSCRIPTION => some MechPurchaseSubscriptionRound
  | MechRequestRound, NO_MAJORITY => some MechRequestRound
  | MechRequestRound, ROUND_TIMEOUT => some MechRequestRound
  | MechPurchaseSubscriptionRound, DONE => some FinishedMechPurchaseSubscriptionRound
  | MechPurchaseSubscriptionRound, NONE => some MechPurchaseSubscriptionRound
  | MechPurchaseSubscriptionRound, NO_MAJORITY => some MechPurchaseSubscriptionRound
  | MechPurchaseSubscriptionRound, ROUND_TIMEOUT => some MechPurchaseSubscriptionRound
  | MechResponseRound, DONE => some FinishedMechResponseRound
  | MechResponseRound, NO_MAJORITY => some MechResponseRound
  | MechResponseRound, ROUND_TIMEOUT => some FinishedMechResponseTimeoutRound
  | _, _ => none

/-- `MechInteractAbciApp.final_states` (`rounds.py`, lines 157-167). -/
def finalStates : List Round :=
  [FinishedMarketplaceLegacyDetectedRound, FinishedMechLegacyDetectedRound,
   FinishedMechInformationRound, FailedMechInformationRound,
   FinishedMechRequestRound, FinishedMechResponseRound,
   FinishedMechResponseTimeoutRound, FinishedMechRequestSkipRound,
   FinishedMechPurchaseSubscriptionRound]

/-- Whether a round is one of the declared final states. -/
def isFinalState (r : Round) : Bool := r ∈ finalStates

/-! ## Provider records (`states/base.py`) -/

/-- `NestedSubgraphItemType = List[Dict[str, str]]`: a list of string-valued
dictionaries, embedded as association lists. -/
def NestedSubgraphItemType := List (List (String × String))
deriving DecidableEq

/-- `METADATA_PREFIX_SIZE = 2` (`states/base.py`). -/
def METADATA_PREFIX_SIZE : Nat := 2

/-- `Service` dataclass (`states/base.py`). -/
structure Service where
  metadata : NestedSubgraphItemType
  deliveries : NestedSubgraphItemType
deriving DecidableEq

/-- `Service._get_nested_item`: the field of the first item of the nested
list, `None` if the list is empty or the field is absent. -/
def getNestedItem (nested : NestedSubgraphItemType) (accessField : String) : Option String :=
  match nested with
  | [] => none
  | item :: _ => item.lookup accessField

/-- `Service.metadata_str`: the first metadata entry with its two-character
hex marker removed, `None` when there is no metadata entry. -/
def Service.metadata_str (s : Service) : Option String :=
  (getNestedItem s.metadata "metadata").map (fun h => h.drop METADATA_PREFIX_SIZE)

/-- `Service.last_delivered`: the first delivery's block timestamp parsed as
an integer, `None` when absent or unparsable (`int` raising is caught). -/
def Service.last_delivered (s : Service) : Option Int :=
  (getNestedItem s.deliveries "blockTimestamp").bind (fun t => t.toInt?)

/-- `MechInfo` dataclass (`states/base.py`) after `__post_init__` has run:
the camelCase `InitVar`s are already reconciled into the snake_case fields
and `relevant_tools` is a set. Python `int` is `Int`; the set of tools is a
`Finset`. -/
structure MechInfo where
  id : String
  address : String
  service : Service
  karma : Int
  received_requests : Int
  self_delivered : Int
  max_delivery_rate : Int
  relevant_tools : Finset String
deriving DecidableEq

/-- `MechInfo.empty_metadata`: whether `service.metadata_str` is `None`. -/
def MechInfo.empty_metadata (m : MechInfo) : Bool :=
  m.service.metadata_str = none

/-! ### Scoring constants (`states/base.py`, lines 48-57)

The Python constants are floats; they are embedded as the exact values the
source text denotes. -/

/-- `MACHINE_EPS = 1e-9`. -/
noncomputable def MACHINE_EPS : ℝ := 1 / 10 ^ 9

/-- `HALF_LIFE_SECONDS = 60 * 60`. -/
def HALF_LIFE_SECONDS : Int := 60 * 60

/-- `DELIVERY_RATE_METRIC_WEIGHT = 0.1`. -/
noncomputable def DELIVERY_RATE_METRIC_WEIGHT : ℝ := 1 / 10

/-- `LIVENESS_METRIC_WEIGHT = 0.45`. -/
noncomputable def LIVENESS_METRIC_WEIGHT : ℝ := 45 / 100

/-- `DELIVERED_RATIO_METRIC_WEIGHT = 0.45`. -/
noncomputable def DELIVERED_RATIO_METRIC_WEIGHT : ℝ := 45 / 100

/-- `LAPLACE_SMOOTHING_ALPHA = 8`. -/
def LAPLACE_SMOOTHING_ALPHA : Int := 8

/-- `LAPLACE_SMOOTHING_BETA = 1`. -/
def LAPLACE_SMOOTHING_BETA : Int := 1

/-- `COLD_START_LIVENESS = ALPHA / (ALPHA + BETA)`. -/
noncomputable def COLD_START_LIVENESS : ℝ :=
  (LAPLACE_SMOOTHING_ALPHA : ℝ) / ((LAPLACE_SMOOTHING_ALPHA : ℝ) + (LAPLACE_SMOOTHING_BETA : ℝ))

/-! ### Metrics (`states/base.py`)

The source computes these metrics in IEEE-754 binary64 arithmetic. The
embedding keeps the real-valued core exact but makes the load-bearing
roundings explicit: a rounding step is an arbitrary function constrained by
the two properties every IEEE round-to-nearest conversion satisfies, namely
monotonicity and fixing every exactly representable binary64 value. The
theorems below quantify over such functions, so they hold of the program's
actual roundings. -/

/-- An exactly representable finite IEEE-754 binary64 value, as a rational:
an integer mantissa of magnitude below `2 ^ 53` scaled by a power of two
within the double exponent range. -/
def DoubleRep (q : ℚ) : Prop :=
  ∃ (m e : Int), |m| < 2 ^ 53 ∧ -1074 ≤ e ∧ e ≤ 971 ∧ q = (m : ℚ) * 2 ^ e

/-- Python's `math.log` on an integer argument: a `ValueError` (modelled as
`none`) for non-positive inputs; for positive inputs the integer is first
reduced to a binary64 mantissa (`flInt`, exact for integers below `2 ^ 53`)
and the natural logarithm of the converted value is taken. -/
noncomputable def mathLog (flInt : Int → ℚ) (x : Int) : Option ℝ :=
  if 0 < x then some (Real.log ((flInt x : ℚ) : ℝ)) else none

/-- `MechInfo.delivery_rate_metric = 1 / (1 + math.log(max_delivery_rate))`.
`none` models the `ValueError` raised by `math.log` on a non-positive rate;
`flInt` is the int-to-double conversion inside `math.log`. -/
noncomputable def MechInfo.delivery_rate_metric (m : MechInfo) (flInt : Int → ℚ) : Option ℝ :=
  (mathLog flInt m.max_delivery_rate).map (fun l => 1 / (1 + l))

/-- `Service.liveness` (`states/base.py`, lines 152-164). `now` is the value
of `time.time()` made an explicit parameter. The Python guard
`if not self.last_delivered` is falsy both for `None` and for `0`. -/
noncomputable def Service.liveness (now : Int) (s : Service) : ℝ :=
  match s.last_delivered with
  | none => 0
  | some t =>
    if t = 0 then 0
    else Real.exp (-((max 0 (now - t) : Int) : ℝ) / ((HALF_LIFE_SECONDS : ℝ) / Real.log 2))

/-- `MechInfo.liveness`: the cold-start constant when the provider has no
received requests, otherwise the service's decayed liveness. -/
noncomputable def MechInfo.liveness (now : Int) (m : MechInfo) : ℝ :=
  if m.received_requests = 0 then COLD_START_LIVENESS
  else m.service.liveness now

/-- `MechInfo.delivered_ratio_smoothed =
(self_delivered + ALPHA) / (received_requests + ALPHA + BETA)`: the exact
value of the quotient. Python's `int / int` is this exact value correctly
rounded to binary64, which the theorems model by applying a monotone,
representable-fixing rounding to this definition. -/
def MechInfo.delivered_ratio_smoothed (m : MechInfo) : ℚ :=
  ((m.self_delivered : ℚ) + (LAPLACE_SMOOTHING_ALPHA : ℚ)) /
    ((m.received_requests : ℚ) + (LAPLACE_SMOOTHING_ALPHA : ℚ) + (LAPLACE_SMOOTHING_BETA : ℚ))

/-- The `score` helper inside `MechInfo.__lt__`: the weighted sum of the
three metrics. It is `none` exactly when `delivery_rate_metric` raises. The
records compared below all carry `max_delivery_rate = 1`, where the
int-to-double conversion inside `math.log` is exact, so the exact conversion
instance is used here. -/
noncomputable def score (now : Int) (m : MechInfo) : Option ℝ :=
  (m.delivery_rate_metric (fun n => (n : ℚ))).map (fun drm =>
    DELIVERY_RATE_METRIC_WEIGHT * drm +
    LIVENESS_METRIC_WEIGHT * m.liveness now +
    DELIVERED_RATIO_METRIC_WEIGHT * (m.delivered_ratio_smoothed : ℝ))

/-- `MechInfo.__lt__` (`states/base.py`, lines 220-239) on records whose
scores evaluate without raising: when the scores differ by less than
`MACHINE_EPS` the karma decides, otherwise the scores do. -/
def mechLt (now : Int) (a b : MechInfo) : Prop :=
  ∃ sa sb : ℝ, score now a = some sa ∧ score now b = some sb ∧
    ((|sa - sb| < MACHINE_EPS ∧ a.karma < b.karma) ∨
     (¬ |sa - sb| < MACHINE_EPS ∧ sa < sb))

/-! ## Provider filtering and selection
(`models.py` `MechsSubgraph.filter_info`, `states/base.py` `SynchronizedData`) -/

/-- `MechsSubgraph.filter_info` (`models.py`, lines 66-73) on the constructed
records: keep a provider iff its metadata is non-empty and its max delivery
rate does not exceed the configured `delivery_rate_cap`. -/
def filter_info (delivery_rate_cap : Int) (unfiltered : List MechInfo) : List MechInfo :=
  unfiltered.filter (fun m => !m.empty_metadata && m.max_delivery_rate ≤ delivery_rate_cap)

/-- `SynchronizedData.relevant_mechs_info`: the providers whose relevant
tools contain the selected tool. -/
def relevant_mechs_info (mech_tool : String) (mechs_info : List MechInfo) : List MechInfo :=
  mechs_info.filter (fun m => mech_tool ∈ m.relevant_tools)

/- Python's `max` over `MechInfo.__lt__` (used by
`SynchronizedData.priority_mech`): scan the list keeping the current best and
replace it whenever it compares less than the candidate. `none` on an empty
list. Noncomputable because the comparison is over exact reals. -/
open Classical in
noncomputable def pyMax (now : Int) : List MechInfo → Option MechInfo
  | [] => none
  | x :: xs =>
    some (xs.foldl (fun best cand => if mechLt now best cand then cand else best) x)

/-- `SynchronizedData.priority_mech` (`states/base.py`, lines 318-325):
the maximum of the relevant providers, `None` when there are none. -/
noncomputable def priority_mech (now : Int) (mech_tool : String)
    (mechs_info : List MechInfo) : Option MechInfo :=
  if relevant_mechs_info mech_tool mechs_info ≠ [] then
    pyMax now (relevant_mechs_info mech_tool mechs_info)
  else none

/-- `SynchronizedData.priority_mech_address` (`states/base.py`, lines
327-335): the priority mech's address, `None` when there is no priority
mech. -/
noncomputable def priority_mech_address (now : Int) (mech_tool : String)
    (mechs_info : List MechInfo) : Option String :=
  (priority_mech now mech_tool mechs_info).map (fun m => m.address)

/-! ## Payment resolution (`behaviours/request.py`) -/

/-- One leg of the multisend batch assembled by `MechRequestBehaviour`:
either the unwrap transaction produced by `_build_unwrap_tokens_tx`, the
token-approval produced by `_build_token_approval`, or the mech-request
transaction produced by `_build_request_data`. -/
inductive TxLeg where
  | unwrap (amount : Int)
  | approval (data : String)
  | request (data : String) (value : Int)
deriving DecidableEq, Repr

/-- `MechRequestBehaviour._build_unwrap_tokens_tx` (`request.py`, lines
358-403), success path: when no wrapped-native-token address is configured
the step is a no-op returning success; otherwise it appends exactly one
unwrap leg of amount `price - wallet_balance`. -/
def buildUnwrapTokensTx (wrappedConfigured : Bool) (price wallet_balance : Int) : List TxLeg :=
  if wrappedConfigured then [TxLeg.unwrap (price - wallet_balance)] else []

/-- The observable outcome of `_ensure_available_balance`: whether the step
reported success, the legs it appended to `multisend_batches`, the shortfall
it logged (if any), and whether it slept. -/
structure EnsureOutcome where
  ok : Bool
  legs : List TxLeg
  loggedShortfall : Option Int
  slept : Bool
deriving DecidableEq, Repr

/-- `MechRequestBehaviour._ensure_available_balance` (`request.py`, lines
487-533) after the balances have been fetched. `price` is the already
computed `self.price if self.using_native else self.mech_max_delivery_rate`.
The four `if`s of the source in order: enough native; enough native plus
wrapped (append the unwrap leg); enough tokens; otherwise log the shortfall,
sleep and report failure. -/
def ensureAvailableBalance (usingNative wrappedConfigured : Bool)
    (price wallet_balance token_balance : Int) : EnsureOutcome :=
  if usingNative = true ∧ price ≤ wallet_balance then
    ⟨true, [], none, false⟩
  else if usingNative = true ∧ price ≤ wallet_balance + token_balance then
    ⟨true, buildUnwrapTokensTx wrappedConfigured price wallet_balance, none, false⟩
  else if price ≤ token_balance then
    ⟨true, [], none, false⟩
  else
    ⟨false, [], some (price - wallet_balance - token_balance), true⟩

/-- The leg-level view of `MechRequestBehaviour._prepare_safe_tx`
(`request.py`, lines 839-863) for the non-Nevermined path: the
`_ensure_available_balance` step runs first and contributes its legs, then
each request contributes one request leg carrying the request data and the
price. `none` when the balance step reports failure (the sequencer sleeps
and retries instead of proceeding). -/
def prepareSafeTxLegs (usingNative wrappedConfigured : Bool)
    (price wallet_balance token_balance : Int)
    (requestData : List String) : Option (List TxLeg) :=
  let e := ensureAvailableBalance usingNative wrappedConfigured price wallet_balance token_balance
  if e.ok then some (e.legs ++ requestData.map (fun d => TxLeg.request d price))
  else none

/-! ## Version-detection voting (`states/mech_version.py`) -/

/-- The three-way outcome of a voting round, plus the no-majority outcome. -/
inductive VoteOutcome where
  | positive
  | negative
  | neither
  | noMajority
deriving DecidableEq, Repr

/-- Modelled from the spec: the `VotingRound` base class of the
`abstract_round_abci` framework is not part of this repository. Per the spec
(section 4.2), a voting round interprets a boolean-like payload field as a
three-way vote (`true`, `false`, `none`); once a strict majority of the
`nbParticipants` submit the same vote the corresponding outcome is reached,
and if no value can still reach the threshold given the remaining
non-responders the round ends with no majority; otherwise it is still
pending (`none`). -/
def votingOutcome (nbParticipants : Nat) (votes : List (Option Bool)) : Option VoteOutcome :=
  let thr := nbParticipants / 2 + 1
  let remaining := nbParticipants - votes.length
  if thr ≤ votes.count (some true) then some VoteOutcome.positive
  else if thr ≤ votes.count (some false) then some VoteOutcome.negative
  else if thr ≤ votes.count none then some VoteOutcome.neither
  else if votes.count (some true) + remaining < thr ∧
          votes.count (some false) + remaining < thr ∧
          votes.count none + remaining < thr then some VoteOutcome.noMajority
  else none

/-- The event configuration of `MechVersionDetectionRound`
(`states/mech_version.py`, lines 42-45): `done_event = V2`,
`negative_event = V1`, `none_event = NO_MARKETPLACE`,
`no_majority_event = NO_MAJORITY`. -/
def eventOfOutcome : VoteOutcome → Event
  | VoteOutcome.positive => Event.V2
  | VoteOutcome.negative => Event.V1
  | VoteOutcome.neither => Event.NO_MARKETPLACE
  | VoteOutcome.noMajority => Event.NO_MAJORITY

/-- The `is_marketplace_v2` entry of the synchronized database:
`none` when the key is absent, `some v` when it holds the value `v`
(itself `Option Bool`, since the stored value may be JSON `null`). -/
def VersionDb := Option (Option Bool)
deriving DecidableEq

/-- `MechVersionDetectionRound.end_block` (`states/mech_version.py`, lines
48-63): take the base round's outcome, and when the event is `V2`, `V1` or
`NO_MARKETPLACE` additionally write `is_marketplace_v2` into the
synchronized data (`None` for `NO_MARKETPLACE`, else whether the event is
`V2`). -/
def mechVersionDetectionEndBlock (nbParticipants : Nat) (votes : List (Option Bool))
    (db : VersionDb) : Option (VersionDb × Event) :=
  match votingOutcome nbParticipants votes with
  | none => none
  | some o =>
    let ev := eventOfOutcome o
    if ev = Event.V2 ∨ ev = Event.V1 ∨ ev = Event.NO_MARKETPLACE then
      let is_v2 : Option Bool :=
        if ev = Event.NO_MARKETPLACE then none else some (ev = Event.V2)
      some (some is_v2, ev)
    else
      some (db, ev)

/-! ## Subscription purchase pipeline (`behaviours/purchase_subcription.py`) -/

/-- One leg of the subscription-purchase multisend batch. -/
inductive SubLeg where
  | createAgreement (data : String)
  | tokenApproval (data : String)
  | fulfill (data : String)
deriving DecidableEq, Repr

/-- The deterministic collaborators of the purchase pipeline: the tx data
returned by the contract-call collaborator for each builder
(`_build_create_agreement_tx_data`,
`_build_subscription_token_approval_tx_data`,
`_build_create_fulfill_tx_data`), the multisend encoder
(`_build_multisend_data`) and the safe-hash collaborator
(`_build_multisend_safe_tx_hash`). A `none` response models a failed
collaborator call. -/
structure PurchaseCollab where
  createAgreementData : Option String
  approvalData : Option String
  fulfillData : Option String
  multisendEncode : List SubLeg → Option String
  safeTxHash : String → Option String

/-- The state threaded through the purchase pipeline: the accumulated
multisend batch, the encoded multisend payload and the signable safe hash. -/
structure PurchaseState where
  batches : List SubLeg := []
  multisendData : Option String := none
  tx_hash : Option String := none

/-- The create-agreement step: on success append the create-agreement leg. -/
def buildCreateAgreementStep (c : PurchaseCollab) (st : PurchaseState) : Option PurchaseState :=
  c.createAgreementData.map
    (fun d => { st with batches := st.batches ++ [SubLeg.createAgreement d] })

/-- The chain-dependent token-approval step
(`_build_subscription_token_approval_tx_data`, required only when the chain
pays the subscription in a token such as usdc on base). -/
def buildApprovalStep (c : PurchaseCollab) (st : PurchaseState) : Option PurchaseState :=
  c.approvalData.map
    (fun d => { st with batches := st.batches ++ [SubLeg.tokenApproval d] })

/-- The fulfill step: on success append the fulfill leg. -/
def buildFulfillStep (c : PurchaseCollab) (st : PurchaseState) : Option PurchaseState :=
  c.fulfillData.map
    (fun d => { st with batches := st.batches ++ [SubLeg.fulfill d] })

/-- `_build_multisend_data`: fold the accumulated batch into one encoded
multisend payload. -/
def buildMultisendStep (c : PurchaseCollab) (st : PurchaseState) : Option PurchaseState :=
  (c.multisendEncode st.batches).map (fun d => { st with multisendData := some d })

/-- `_build_multisend_safe_tx_hash`: obtain the signable hash of the encoded
multisend payload. -/
def buildHashStep (c : PurchaseCollab) (st : PurchaseState) : Option PurchaseState :=
  (st.multisendData.bind c.safeTxHash).map (fun h => { st with tx_hash := some h })

/-- Run an ordered list of possibly-failing steps; a failing step aborts the
whole sequence. -/
def runSteps : List (PurchaseState → Option PurchaseState) → PurchaseState → Option PurchaseState
  | [], st => some st
  | f :: fs, st => (f st).bind (runSteps fs)

/-- Modelled from the spec: the orchestration of
`MechPurchaseSubscriptionBehaviour` (`_prepare_safe_tx` and `async_act`) is
an unimplemented stub in the source. Per the spec (sections 4.3 and 8,
scenario E) the pipeline builds the create-agreement call, then the
token-approval call when the chain requires it, then the fulfill call, folds
all calls into one multisend and computes the batch's signable hash, with
each stage's failure fatal to the whole attempt. -/
def purchasePipeline (chainRequiresApproval : Bool) (c : PurchaseCollab) : Option PurchaseState :=
  runSteps
    ([buildCreateAgreementStep c] ++
     (if chainRequiresApproval then [buildApprovalStep c] else []) ++
     [buildFulfillStep c, buildMultisendStep c, buildHashStep c])
    {}

/-! ## Raising versus returning on the failure paths
(`models.py` `MechsSubgraph.process_response`,
`purchase_subcription.py` `get_agreement_id`) -/

/-- A Python runtime error. -/
inductive PyError where
  | nameError (name : String)
  | typeError (message : String)
deriving DecidableEq, Repr

/-- The names bound at module level in `models.py` by its import statements
and definitions, in source order. -/
def modelsModuleGlobals : List String :=
  ["dataclass", "Any", "Dict", "List", "Optional", "enforce", "HexBytes",
   "ChainType", "NULL_ADDRESS", "MultiSendOperation", "HttpMessage",
   "ApiSpecs", "BaseParams", "BenchmarkTool", "Requests", "SharedState",
   "MechInteractAbciApp", "MechInfo", "MechsInfo", "BaseBenchmarkTool",
   "BaseRequests", "BaseSharedState", "MechsSubgraphResponseType",
   "PLAN_DID_PREFIX", "Ox", "MechToolsSpecs", "MechsSubgraph", "NVMConfig",
   "CHAIN_TO_NVM_CONFIG", "CHAIN_TO_PRICE_TOKEN", "MechResponseSpecs",
   "MechMarketplaceConfig", "MechParams", "Params", "MultisendBatch"]

/-- The Python builtin names that module code can reach without an import
(the ones relevant to `models.py`); the `builtins` module itself is not a
builtin name. -/
def pythonBuiltinNames : List String :=
  ["getattr", "setattr", "isinstance", "int", "str", "bool", "list", "set",
   "dict", "tuple", "len", "super", "ValueError", "TypeError", "KeyError",
   "Exception", "print", "repr", "max", "min", "sorted", "sum", "abs"]

/-- Python name resolution inside a function of `models.py`: a free name is
looked up in the module globals and then in the builtins namespace; an
unbound name raises `NameError`. -/
def lookupModelsName (n : String) : Except PyError Unit :=
  if n ∈ modelsModuleGlobals ∨ n ∈ pythonBuiltinNames then Except.ok ()
  else Except.error (PyError.nameError n)

/-- `MechsSubgraph.process_response` (`models.py`, lines 75-89) when the
base processing returns a failure (`res is None`): the error branch first
evaluates the free name `builtins` in
`getattr(builtins, self.response_info.error_type)`. The claim-relevant
observable is whether this evaluation returns `None` or raises. -/
def processResponseFailurePath : Except PyError (Option (List MechInfo)) := do
  let _ ← lookupModelsName "builtins"
  pure none

/-- The parameter list of a Python function: the names of its positional
parameters and the number of trailing parameters that carry defaults. -/
structure PyFunction where
  params : List String
  defaults : Nat
deriving DecidableEq, Repr

/-- Python positional-argument binding: a call with `nArgs` positional
arguments succeeds iff it covers every parameter without a default and does
not exceed the parameter count; otherwise it raises `TypeError`. -/
def bindCall (f : PyFunction) (nArgs : Nat) : Except PyError Unit :=
  if f.params.length - f.defaults ≤ nArgs ∧ nArgs ≤ f.params.length then Except.ok ()
  else Except.error (PyError.typeError "missing a required positional argument")

/-- `MechPurchaseSubscriptionBehaviour._generate_agreement_id_seed`
(`purchase_subcription.py`, lines 228-234): declared `@staticmethod`, yet
its signature is `(self, length: int = 64)`, so `self` is an ordinary
required positional parameter and `length` the single defaulted one. -/
def generateAgreementIdSeedFn : PyFunction :=
  { params := ["self", "length"], defaults := 1 }

/-- The first step of `get_agreement_id` (`purchase_subcription.py`, lines
311-315): the call `self._generate_agreement_id_seed()`. Because the method
is a staticmethod, the instance is not bound, so the call supplies zero
positional arguments to the function above; on success the model returns a
placeholder seed. -/
def getAgreementIdSeedStep : Except PyError String := do
  let _ ← bindCall generateAgreementIdSeedFn 0
  pure "0xseed"

/-! ## The JSON wire format (`states/base.py` `MechInfoEncoder`,
`SynchronizedData.mechs_info` / `mech_requests` / `mech_responses`) -/

/-- A JSON value. -/
inductive JVal where
  | s (v : String)
  | i (v : Int)
  | b (v : Bool)
  | null
  | arr (vs : List JVal)
  | obj (fields : List (String × JVal))

/-- Field lookup on a JSON object. -/
def JVal.getField : JVal → String → Option JVal
  | JVal.obj fields, k => fields.lookup k
  | _, _ => none

/-- Expect a JSON string. -/
def JVal.asStr : JVal → Option String
  | JVal.s v => some v
  | _ => none

/-- Expect a JSON integer. -/
def JVal.asInt : JVal → Option Int
  | JVal.i v => some v
  | _ => none

/-- Python's `int(value)` on a JSON value: accepts integers, integer-looking
strings and booleans; everything else raises (`none`). -/
def pyInt : JVal → Option Int
  | JVal.i v => some v
  | JVal.s v => v.toInt?
  | JVal.b v => some (if v then 1 else 0)
  | _ => none

/-- A JSON `null` or string, as Python `Optional[str]`. -/
def JVal.asOptStr : JVal → Option (Option String)
  | JVal.null => some none
  | JVal.s v => some (some v)
  | _ => none

/-! ### Encoding (`dataclasses.asdict` + `MechInfoEncoder`) -/

/-- `asdict` of a string dictionary. -/
def encodeDict (d : List (String × String)) : JVal :=
  JVal.obj (d.map (fun kv => (kv.1, JVal.s kv.2)))

/-- `asdict` of a `NestedSubgraphItemType`. -/
def encodeNested (n : NestedSubgraphItemType) : JVal :=
  JVal.arr (n.map encodeDict)

/-- `asdict` of a `Service`. -/
def encodeService (s : Service) : JVal :=
  JVal.obj [("metadata", encodeNested s.metadata), ("deliveries", encodeNested s.deliveries)]

/-- `MechInfoEncoder` turning the `relevant_tools` set into a JSON list
(`states/base.py`, lines 269-281); the enumeration order of a Python set is
unspecified, here it is the sorted order. -/
noncomputable def encodeTools (ts : Finset String) : JVal :=
  JVal.arr ((ts.sort (fun a b => a ≤ b)).map JVal.s)

/-- `asdict` of a `MechInfo` under `MechInfoEncoder`: the dataclass fields
in declaration order (the `InitVar`s are not fields and are absent). -/
noncomputable def encodeMechInfo (m : MechInfo) : JVal :=
  JVal.obj
    [("id", JVal.s m.id), ("address", JVal.s m.address),
     ("service", encodeService m.service), ("karma", JVal.i m.karma),
     ("received_requests", JVal.i m.received_requests),
     ("self_delivered", JVal.i m.self_delivered),
     ("max_delivery_rate", JVal.i m.max_delivery_rate),
     ("relevant_tools", encodeTools m.relevant_tools)]

/-- The serialized `mechs_info` list. -/
noncomputable def encodeMechsInfo (l : List MechInfo) : JVal :=
  JVal.arr (l.map encodeMechInfo)

/-! ### Decoding (`MechInfo(**item)` and `__post_init__`) -/

/-- Decode one entry of a string dictionary. -/
def decodeStrEntry (kv : String × JVal) : Option (String × String) :=
  (kv.2.asStr).map (fun v => (kv.1, v))

/-- Decode a string dictionary. -/
def decodeDict : JVal → Option (List (String × String))
  | JVal.obj fields => fields.mapM decodeStrEntry
  | _ => none

/-- Decode a `NestedSubgraphItemType`. -/
def decodeNested : JVal → Option NestedSubgraphItemType
  | JVal.arr vs => vs.mapM decodeDict
  | _ => none

/-- `Service(**dict)` on a decoded JSON object. -/
def decodeService (j : JVal) : Option Service := do
  let m ← (j.getField "metadata").bind decodeNested
  let d ← (j.getField "deliveries").bind decodeNested
  pure ⟨m, d⟩

/-- `set(relevant_tools)` on the JSON list encoding of the tool set. -/
def decodeTools : JVal → Option (Finset String)
  | JVal.arr vs => (vs.mapM JVal.asStr).map List.toFinset
  | _ => none

/-- The camelCase-to-snake_case conversion loop of `MechInfo.__post_init__`
(`states/base.py`, lines 196-211). Python iterates the mapping in the order
`received_requests`, `self_delivered`, `max_delivery_rate`; when the
snake_case attribute is non-zero the whole loop, and with it the remaining
conversions, is exited by `return`. -/
def postInitCounts (received_requests self_delivered max_delivery_rate : Int)
    (receivedRequests selfDeliveredFromReceived maxDeliveryRate : Int) :
    Int × Int × Int :=
  if received_requests ≠ 0 then
    (received_requests, self_delivered, max_delivery_rate)
  else
    let rr := receivedRequests
    if self_delivered ≠ 0 then (rr, self_delivered, max_delivery_rate)
    else
      let sd := selfDeliveredFromReceived
      if max_delivery_rate ≠ 0 then (rr, sd, max_delivery_rate)
      else (rr, sd, maxDeliveryRate)

/-- An integer field of a JSON object, with the dataclass default when the
key is absent. -/
def getIntOr (j : JVal) (k : String) (d : Int) : Option Int :=
  match j.getField k with
  | none => some d
  | some v => v.asInt

/-- A camelCase `InitVar` of a JSON object: the default `0` when absent,
otherwise Python's `int` conversion of the supplied value. -/
def getInitVarOr (j : JVal) (k : String) : Option Int :=
  match j.getField k with
  | none => some 0
  | some v => pyInt v

/-- `MechInfo(**item)` together with `__post_init__` on a parsed JSON
object: mandatory `id`, `address`, `service` and `karma`, defaulted
snake_case counts and camelCase `InitVar`s reconciled by the conversion
loop, and `relevant_tools` restored from its list encoding. `none` models a
raised `TypeError`/`ValueError`. -/
def decodeMechInfo (j : JVal) : Option MechInfo := do
  let id ← (j.getField "id").bind JVal.asStr
  let address ← (j.getField "address").bind JVal.asStr
  let service ← (j.getField "service").bind decodeService
  let karmaRaw ← j.getField "karma"
  let rrSnake ← getIntOr j "received_requests" 0
  let sdSnake ← getIntOr j "self_delivered" 0
  let rateSnake ← getIntOr j "max_delivery_rate" 0
  let rrCamel ← getInitVarOr j "receivedRequests"
  let sdCamel ← getInitVarOr j "selfDeliveredFromReceived"
  let rateCamel ← getInitVarOr j "maxDeliveryRate"
  let tools ← match j.getField "relevant_tools" with
    | none => some (∅ : Finset String)
    | some v => decodeTools v
  let counts := postInitCounts rrSnake sdSnake rateSnake rrCamel sdCamel rateCamel
  let karma ← pyInt karmaRaw
  pure ⟨id, address, service, karma, counts.1, counts.2.1, counts.2.2, tools⟩

/-- `SynchronizedData.mechs_info` parsing of the serialized list
(`states/base.py`, lines 291-297). -/
def decodeMechsInfo : JVal → Option (List MechInfo)
  | JVal.arr vs => vs.mapM decodeMechInfo
  | _ => none

/-- `MechMetadata` dataclass (`states/base.py`, lines 76-82). -/
structure MechMetadata where
  prompt : String
  tool : String
  nonce : String
deriving DecidableEq

/-- `asdict` of a `MechMetadata`. -/
def encodeMechMetadata (m : MechMetadata) : JVal :=
  JVal.obj [("prompt", JVal.s m.prompt), ("tool", JVal.s m.tool), ("nonce", JVal.s m.nonce)]

/-- The serialized `mech_requests` list. -/
def encodeMechRequests (l : List MechMetadata) : JVal :=
  JVal.arr (l.map encodeMechMetadata)

/-- `MechMetadata(**metadata_item)` on a parsed JSON object
(`SynchronizedData.mech_requests`, `states/base.py`, lines 363-368). -/
def decodeMechMetadata (j : JVal) : Option MechMetadata := do
  let prompt ← (j.getField "prompt").bind JVal.asStr
  let tool ← (j.getField "tool").bind JVal.asStr
  let nonce ← (j.getField "nonce").bind JVal.asStr
  pure ⟨prompt, tool, nonce⟩

/-- Parsing of the serialized `mech_requests` list. -/
def decodeMechRequests : JVal → Option (List MechMetadata)
  | JVal.arr vs => vs.mapM decodeMechMetadata
  | _ => none

/-- `MechInteractionResponse` dataclass together with the `MechRequest`
fields it inherits (`states/base.py`, lines 85-114). Python `bytes` is a
list of byte values. -/
structure MechInteractionResponse where
  data : String := ""
  requestId : Int := 0
  requestIds : List Int := []
  numRequests : Int := 0
  nonce : String := ""
  result : Option String := none
  error : String := "Unknown"
  response_data : Option (List Nat) := none
  sender_address : Option String := none
deriving DecidableEq

/-- A Python `Optional[str]` as JSON. -/
def encodeOptStr : Option String → JVal
  | none => JVal.null
  | some s => JVal.s s

/-- Modelled from the spec: the `DataclassEncoder` used by
`json.dumps` for requests and responses lives in the skill's `utils` module,
which is not part of these sources; per the spec it serializes dataclass
records to the JSON wire format field by field. JSON has no representation
for `bytes`, so a record whose `response_data` is an actual byte string is
not serializable (`none`, a raised `TypeError`). -/
def encodeMechInteractionResponse (r : MechInteractionResponse) : Option JVal :=
  match r.response_data with
  | some _ => none
  | none =>
    some (JVal.obj
      [("data", JVal.s r.data), ("requestId", JVal.i r.requestId),
       ("requestIds", JVal.arr (r.requestIds.map JVal.i)),
       ("numRequests", JVal.i r.numRequests), ("nonce", JVal.s r.nonce),
       ("result", encodeOptStr r.result), ("error", JVal.s r.error),
       ("response_data", JVal.null), ("sender_address", encodeOptStr r.sender_address)])

/-- The serialized `mech_responses` list. -/
def encodeMechResponses (l : List MechInteractionResponse) : Option JVal :=
  (l.mapM encodeMechInteractionResponse).map JVal.arr

/-- A string field of a JSON object with a dataclass default. -/
def getStrOr (j : JVal) (k : String) (d : String) : Option String :=
  match j.getField k with
  | none => some d
  | some v => v.asStr

/-- An `Optional[str]` field of a JSON object with default `None`. -/
def getOptStrOr (j : JVal) (k : String) : Option (Option String) :=
  match j.getField k with
  | none => some none
  | some v => v.asOptStr

/-- `MechInteractionResponse(**response_item)` on a parsed JSON object
(`SynchronizedData.mech_responses`, `states/base.py`, lines 371-376): every
field has a dataclass default; `response_data` coming from JSON is `null`
(JSON cannot carry `bytes`). -/
def decodeMechInteractionResponse (j : JVal) : Option MechInteractionResponse := do
  let data ← getStrOr j "data" ""
  let requestId ← getIntOr j "requestId" 0
  let requestIds ← match j.getField "requestIds" with
    | none => some ([] : List Int)
    | some (JVal.arr vs) => vs.mapM JVal.asInt
    | some _ => none
  let numRequests ← getIntOr j "numRequests" 0
  let nonce ← getStrOr j "nonce" ""
  let result ← getOptStrOr j "result"
  let error ← getStrOr j "error" "Unknown"
  let response_data ← match j.getField "response_data" with
    | none => some (none : Option (List Nat))
    | some JVal.null => some none
    | some _ => none
  let sender_address ← getOptStrOr j "sender_address"
  pure ⟨data, requestId, requestIds, numRequests, nonce, result, error,
        response_data, sender_address⟩

/-- Parsing of the serialized `mech_responses` list. -/
def decodeMechResponses : JVal → Option (List MechInteractionResponse)
  | JVal.arr vs => vs.mapM decodeMechInteractionResponse
  | _ => none

/-! ## Claim C1: self-loops of the transition table -/

/-- Claim C1 (counterexample): the claim states that every non-final round
self-loops on both `NO_MAJORITY` and `ROUND_TIMEOUT`; however the non-final
`MechResponseRound` maps `ROUND_TIMEOUT` to the final
`FinishedMechResponseTimeoutRound`, not back to itself. -/
theorem claim_C1_counterexample :
    isFinalState Round.MechResponseRound = false ∧
    transitionFunction Round.MechResponseRound Event.ROUND_TIMEOUT =
      some Round.FinishedMechResponseTimeoutRound ∧
    transitionFunction Round.MechResponseRound Event.ROUND_TIMEOUT ≠
      some Round.MechResponseRound := by
  decide

/-- Claim C1 (amended): every non-final round of the transition table
self-loops on `NO_MAJORITY`; every non-final round except
`MechResponseRound` also self-loops on `ROUND_TIMEOUT`, while
`MechResponseRound` maps `ROUND_TIMEOUT` to the final
`FinishedMechResponseTimeoutRound`. -/
theorem claim_C1_amended (r : Round) (h : isFinalState r = false) :
    transitionFunction r Event.NO_MAJORITY = some r ∧
    (r ≠ Round.MechResponseRound →
      transitionFunction r Event.ROUND_TIMEOUT = some r) ∧
    (r = Round.MechResponseRound →
      transitionFunction r Event.ROUND_TIMEOUT =
        some Round.FinishedMechResponseTimeoutRound) := by
  revert h
  revert r
  decide

/-- Claim C1 (witness): the amended statement instantiated at the non-final
`MechRequestRound`. -/
theorem claim_C1_witness :
    transitionFunction Round.MechRequestRound Event.NO_MAJORITY =
      some Round.MechRequestRound ∧
    transitionFunction Round.MechRequestRound Event.ROUND_TIMEOUT =
      some Round.MechRequestRound :=
  ⟨(claim_C1_amended Round.MechRequestRound (by decide)).1,
   (claim_C1_amended Round.MechRequestRound (by decide)).2.1 (by decide)⟩

/-! ## Claim C3: version-detection voting outcomes -/

/-- Claim C3: when the version-detection round reaches a threshold outcome,
it emits `V2` for a true vote, `V1` for a false vote and `NO_MARKETPLACE`
for a none vote, and the same transition writes `is_marketplace_v2` as
`true`, `false` and `null` respectively; in particular unanimous v2 votes
emit `V2` and write `true`. -/
theorem claim_C3_version_detection (n : Nat) (votes : List (Option Bool)) (db : VersionDb) :
    (votingOutcome n votes = some VoteOutcome.positive →
      mechVersionDetectionEndBlock n votes db = some (some (some true), Event.V2)) ∧
    (votingOutcome n votes = some VoteOutcome.negative →
      mechVersionDetectionEndBlock n votes db = some (some (some false), Event.V1)) ∧
    (votingOutcome n votes = some VoteOutcome.neither →
      mechVersionDetectionEndBlock n votes db = some (some none, Event.NO_MARKETPLACE)) ∧
    (0 < n → votes.length = n → (∀ v ∈ votes, v = some true) →
      mechVersionDetectionEndBlock n votes db = some (some (some true), Event.V2)) := by
  refine ⟨?_, ?_, ?_, ?_⟩
  · intro h
    simp [mechVersionDetectionEndBlock, h, eventOfOutcome]
  · intro h
    simp [mechVersionDetectionEndBlock, h, eventOfOutcome]
  · intro h
    simp [mechVersionDetectionEndBlock, h, eventOfOutcome]
  · intro hn hlen hall
    have hcount : votes.count (some true) = votes.length := by
      rw [List.count_eq_length]
      intro b hb
      simpa using (hall b hb).symm
    have hpos : votingOutcome n votes = some VoteOutcome.positive := by
      unfold votingOutcome
      have : n / 2 + 1 ≤ votes.count (some true) := by
        rw [hcount, hlen]
        omega
      simp [this]
    simp [mechVersionDetectionEndBlock, hpos, eventOfOutcome]

/-- Claim C3 (witness): three participants, unanimous v2 votes, an absent
`is_marketplace_v2` key. -/
theorem claim_C3_witness :
    mechVersionDetectionEndBlock 3 [some true, some true, some true] none =
      some (some (some true), Event.V2) :=
  (claim_C3_version_detection 3 [some true, some true, some true] none).2.2.2
    (by decide) (by decide) (by decide)

/-! ## Claim C4: native-payment balance resolution -/

/-- Claim C4: for a native payment with fetched balances,
`_ensure_available_balance` is a three-way case split: enough native balance
succeeds with no unwrap leg; enough native-plus-wrapped balance succeeds
after appending exactly one unwrap leg of amount `price - wallet`, placed
before any request leg; otherwise no leg is appended, the exact shortfall
`price - wallet - wrapped` is logged, the step sleeps and reports failure
rather than aborting. -/
theorem claim_C4_ensure_available_balance
    (wrappedConfigured : Bool) (price wallet token : Int)
    (hw : 0 ≤ wallet) (ht : 0 ≤ token)
    (hcfg : wrappedConfigured = true ∨ token = 0) :
    (price ≤ wallet →
      ensureAvailableBalance true wrappedConfigured price wallet token =
        ⟨true, [], none, false⟩) ∧
    (wallet < price → price ≤ wallet + token →
      ensureAvailableBalance true wrappedConfigured price wallet token =
        ⟨true, [TxLeg.unwrap (price - wallet)], none, false⟩ ∧
      ∀ requestData : List String,
        prepareSafeTxLegs true wrappedConfigured price wallet token requestData =
          some (TxLeg.unwrap (price - wallet) ::
                  requestData.map (fun d => TxLeg.request d price))) ∧
    (wallet + token < price →
      ensureAvailableBalance true wrappedConfigured price wallet token =
        ⟨false, [], some (price - wallet - token), true⟩) := by
  refine ⟨?_, ?_, ?_⟩
  · intro h
    simp [ensureAvailableBalance, h]
  · intro h1 h2
    rcases hcfg with hc | hc
    · have hens : ensureAvailableBalance true wrappedConfigured price wallet token =
          ⟨true, [TxLeg.unwrap (price - wallet)], none, false⟩ := by
        simp [ensureAvailableBalance, buildUnwrapTokensTx, hc, h2, not_le.mpr h1]
      exact ⟨hens, fun requestData => by simp [prepareSafeTxLegs, hens]⟩
    · subst hc
      exfalso
      omega
  · intro h
    have h1 : ¬ price ≤ wallet := by omega
    have h2 : ¬ price ≤ wallet + token := by omega
    have h3 : ¬ price ≤ token := by omega
    simp [ensureAvailableBalance, h1, h2, h3]

/-- Claim C4 (witness): scenario C (wallet 80, price 100, no wrapped token:
failure with shortfall 20, no leg) and scenario D (wallet 80, wrapped 30,
price 100: one unwrap leg of 20, placed before the request leg). -/
theorem claim_C4_witness :
    ensureAvailableBalance true false 100 80 0 = ⟨false, [], some 20, true⟩ ∧
    ensureAvailableBalance true true 100 80 30 =
      ⟨true, [TxLeg.unwrap 20], none, false⟩ ∧
    prepareSafeTxLegs true true 100 80 30 ["req"] =
      some [TxLeg.unwrap 20, TxLeg.request "req" 100] := by
  refine ⟨?_, ?_, ?_⟩
  · have h := (claim_C4_ensure_available_balance false 100 80 0
      (by norm_num) (by norm_num) (Or.inr rfl)).2.2 (by norm_num)
    simpa using h
  · have h := ((claim_C4_ensure_available_balance true 100 80 30
      (by norm_num) (by norm_num) (Or.inl rfl)).2.1 (by norm_num) (by norm_num)).1
    simpa using h
  · have h := ((claim_C4_ensure_available_balance true 100 80 30
      (by norm_num) (by norm_num) (Or.inl rfl)).2.1 (by norm_num) (by norm_num)).2 ["req"]
    simpa using h

/-! ## Claim C5: subscription-purchase pipeline shape -/

/-- Claim C5: with collaborators returning deterministic data, the
subscription-purchase pipeline produces a multisend batch of exactly three
legs, create-agreement then token-approval (when the chain requires it) then
fulfill, in that fixed order, and then computes the batch's signable hash;
without the approval requirement the same pipeline produces the two
remaining legs in the same relative order. -/
theorem claim_C5_purchase_pipeline (c : PurchaseCollab) (d1 d2 d3 : String) :
    (∀ md hsh : String,
      c.createAgreementData = some d1 → c.approvalData = some d2 →
      c.fulfillData = some d3 →
      c.multisendEncode
        [SubLeg.createAgreement d1, SubLeg.tokenApproval d2, SubLeg.fulfill d3] = some md →
      c.safeTxHash md = some hsh →
      purchasePipeline true c =
        some { batches := [SubLeg.createAgreement d1, SubLeg.tokenApproval d2,
                           SubLeg.fulfill d3],
               multisendData := some md, tx_hash := some hsh }) ∧
    (∀ md hsh : String,
      c.createAgreementData = some d1 → c.fulfillData = some d3 →
      c.multisendEncode [SubLeg.createAgreement d1, SubLeg.fulfill d3] = some md →
      c.safeTxHash md = some hsh →
      purchasePipeline false c =
        some { batches := [SubLeg.createAgreement d1, SubLeg.fulfill d3],
               multisendData := some md, tx_hash := some hsh }) := by
  constructor
  · intro md hsh h1 h2 h3 hm hh
    simp [purchasePipeline, runSteps, buildCreateAgreementStep, buildApprovalStep,
          buildFulfillStep, buildMultisendStep, buildHashStep, h1, h2, h3, hm, hh]
  · intro md hsh h1 h3 hm hh
    simp [purchasePipeline, runSteps, buildCreateAgreementStep,
          buildFulfillStep, buildMultisendStep, buildHashStep, h1, h3, hm, hh]

/-- Deterministic collaborators for the purchase-pipeline witness. -/
def cexCollab : PurchaseCollab :=
  { createAgreementData := some "0xa"
    approvalData := some "0xb"
    fulfillData := some "0xc"
    multisendEncode := fun _ => some "0xmultisend"
    safeTxHash := fun _ => some "0xsafehash" }

/-- Claim C5 (witness): the pipeline run with the deterministic
collaborators yields the three legs in order and the signable hash. -/
theorem claim_C5_witness :
    purchasePipeline true cexCollab =
      some { batches := [SubLeg.createAgreement "0xa", SubLeg.tokenApproval "0xb",
                         SubLeg.fulfill "0xc"],
             multisendData := some "0xmultisend", tx_hash := some "0xsafehash" } :=
  (claim_C5_purchase_pipeline cexCollab "0xa" "0xb" "0xc").1 "0xmultisend" "0xsafehash"
    rfl rfl rfl rfl rfl

/-! ## Claim C10: the failure paths the spec says return instead of raising -/

/-- Claim C10 (evaluation at the failing inputs): processing a failed
subgraph response reaches `getattr(builtins, ...)` with the name `builtins`
unbound in `models.py`, raising `NameError`; and the first step of
`get_agreement_id` calls the `@staticmethod` seed generator whose signature
still requires `self`, so the zero-argument call raises `TypeError`. Both
contradict the claim that these paths return a failure value rather than
raising. -/
theorem claim_C10_failure_paths_raise :
    processResponseFailurePath = Except.error (PyError.nameError "builtins") ∧
    getAgreementIdSeedStep =
      Except.error (PyError.typeError "missing a required positional argument") := by
  constructor
  · rfl
  · rfl

/-! ## Claim C6: the pre-ranking filter -/

/-- Claim C6: a provider whose service metadata is empty, or whose max
delivery rate exceeds the configured cap, never appears in the filtered
list; consequently, when every entry has empty metadata the filtered list is
empty and `priority_mech_address` over it is `None`. -/
theorem claim_C6_filter_excludes (cap : Int) (unfiltered : List MechInfo) :
    (∀ m ∈ unfiltered, (m.empty_metadata = true ∨ cap < m.max_delivery_rate) →
       m ∉ filter_info cap unfiltered) ∧
    ((∀ m ∈ unfiltered, m.empty_metadata = true) →
       filter_info cap unfiltered = [] ∧
       ∀ (now : Int) (tool : String),
         priority_mech_address now tool (filter_info cap unfiltered) = none) := by
  constructor
  · intro m _ hbad hmem
    have hpred := (List.mem_filter.mp hmem).2
    rcases hbad with hempty | hcap
    · simp [hempty] at hpred
    · simp [not_le.mpr hcap] at hpred
  · intro hall
    have hnil : filter_info cap unfiltered = [] := by
      apply List.filter_eq_nil_iff.mpr
      intro m hm
      simp [hall m hm]
    refine ⟨hnil, fun now tool => ?_⟩
    rw [hnil]
    simp [priority_mech_address, priority_mech, relevant_mechs_info]

/-- A provider record with entirely empty service metadata. -/
def emptyMetaMech : MechInfo :=
  { id := "m0", address := "0xdead", service := ⟨[], []⟩, karma := 0,
    received_requests := 0, self_delivered := 0, max_delivery_rate := 1,
    relevant_tools := ∅ }

/-- Claim C6 (witness): a one-element provider list with empty metadata is
entirely filtered out and yields a `None` priority address. -/
theorem claim_C6_witness :
    filter_info 10 [emptyMetaMech] = [] ∧
    priority_mech_address 0 "prediction" (filter_info 10 [emptyMetaMech]) = none := by
  have h := (claim_C6_filter_excludes 10 [emptyMetaMech]).2 (by decide)
  exact ⟨h.1, h.2 0 "prediction"⟩

/-! ## Claim C7: bounds of the Laplace-smoothed delivered ratio -/

/-- A provider record with non-negative counts whose smoothed ratio is not
inside the open unit interval. -/
def ratioCexMech : MechInfo :=
  { id := "m1", address := "0x1", service := ⟨[], []⟩, karma := 0,
    received_requests := 0, self_delivered := 1, max_delivery_rate := 1,
    relevant_tools := ∅ }

/-- Claim C7 (counterexample): the claim asserts the smoothed ratio lies
strictly between 0 and 1 for all transport-supplied non-negative counts, but
for `self_delivered = 1` and `received_requests = 0` (counts the code
accepts) the ratio is exactly `(1+8)/(0+9) = 1`. -/
theorem claim_C7_counterexample :
    0 ≤ ratioCexMech.self_delivered ∧ 0 ≤ ratioCexMech.received_requests ∧
    MechInfo.delivered_ratio_smoothed ratioCexMech = 1 ∧
    ¬ MechInfo.delivered_ratio_smoothed ratioCexMech < 1 := by
  refine ⟨by norm_num [ratioCexMech], by norm_num [ratioCexMech], ?_, ?_⟩
  · norm_num [MechInfo.delivered_ratio_smoothed, ratioCexMech,
      LAPLACE_SMOOTHING_ALPHA, LAPLACE_SMOOTHING_BETA]
  · norm_num [MechInfo.delivered_ratio_smoothed, ratioCexMech,
      LAPLACE_SMOOTHING_ALPHA, LAPLACE_SMOOTHING_BETA]

/-- Small integers are exactly representable doubles. -/
lemma doubleRep_int (n : Int) (h : |n| < 2 ^ 53) : DoubleRep (n : ℚ) := by
  refine ⟨n, 0, h, by norm_num, by norm_num, ?_⟩
  rw [zpow_zero, mul_one]

/-- The double `2 ^ (-50)` is exactly representable. -/
lemma doubleRep_low : DoubleRep (1 / 2 ^ 50) := by
  refine ⟨1, -50, by norm_num, by norm_num, by norm_num, ?_⟩
  rw [Int.cast_one, one_mul, zpow_neg]
  norm_num

/-- The double `1 - 2 ^ (-53)`, the largest double below one, is exactly
representable. -/
lemma doubleRep_high : DoubleRep (1 - 1 / 2 ^ 53) := by
  refine ⟨2 ^ 53 - 1, -53, by norm_num, by norm_num, by norm_num, ?_⟩
  rw [zpow_neg]
  push_cast
  rw [← div_eq_mul_inv, eq_div_iff (by norm_num)]
  norm_num

/-- The exact smoothed ratio written over plain numerals. -/
lemma delivered_ratio_smoothed_eq (m : MechInfo) :
    m.delivered_ratio_smoothed =
      ((m.self_delivered : ℚ) + 8) / ((m.received_requests : ℚ) + 9) := by
  unfold MechInfo.delivered_ratio_smoothed
  rw [LAPLACE_SMOOTHING_ALPHA, LAPLACE_SMOOTHING_BETA]
  norm_num [add_assoc]

/-- Claim C7 (amended): the program rounds the exact quotient once, by a
correctly-rounded float division; for every such rounding `fl` (monotone and
fixing representable doubles, as IEEE round-to-nearest is), the rounded
smoothed ratio lies strictly between 0 and 1 whenever the counts are
non-negative with `self_delivered ≤ received_requests` and
`received_requests + 9 ≤ 2 ^ 53`. At `self_delivered = 1,
received_requests = 0` the exact ratio is already 1, and beyond `2 ^ 53`
the correctly-rounded division itself can return exactly 1 (for instance at
`self_delivered = received_requests = 2 * 10 ^ 16`). -/
theorem claim_C7_amended (fl : ℚ → ℚ) (hmono : Monotone fl)
    (hfix : ∀ q : ℚ, DoubleRep q → fl q = q)
    (m : MechInfo) (h0 : 0 ≤ m.self_delivered)
    (h1 : m.self_delivered ≤ m.received_requests)
    (h2 : m.received_requests + 9 ≤ 2 ^ 53) :
    0 < fl m.delivered_ratio_smoothed ∧ fl m.delivered_ratio_smoothed < 1 := by
  have hsd : (0 : ℚ) ≤ (m.self_delivered : ℚ) := by exact_mod_cast h0
  have hle : (m.self_delivered : ℚ) ≤ (m.received_requests : ℚ) := by exact_mod_cast h1
  have hsmall : (m.received_requests : ℚ) + 9 ≤ 2 ^ 53 := by exact_mod_cast h2
  have hden : (0 : ℚ) < (m.received_requests : ℚ) + 9 := by linarith
  have hlo : (1 / 2 ^ 50 : ℚ) ≤ m.delivered_ratio_smoothed := by
    rw [delivered_ratio_smoothed_eq, le_div_iff₀ hden]
    linarith
  have hhi : m.delivered_ratio_smoothed ≤ 1 - 1 / 2 ^ 53 := by
    rw [delivered_ratio_smoothed_eq, div_le_iff₀ hden]
    have expand : (1 - 1 / 2 ^ 53 : ℚ) * ((m.received_requests : ℚ) + 9) =
        ((m.received_requests : ℚ) + 9) - ((m.received_requests : ℚ) + 9) / 2 ^ 53 := by
      ring
    have key : ((m.received_requests : ℚ) + 9) / 2 ^ 53 ≤ 1 := by
      rw [div_le_one (by norm_num)]
      linarith
    rw [expand]
    linarith
  have hflo : fl (1 / 2 ^ 50) = 1 / 2 ^ 50 := hfix _ doubleRep_low
  have hfhi : fl (1 - 1 / 2 ^ 53) = 1 - 1 / 2 ^ 53 := hfix _ doubleRep_high
  constructor
  · calc (0 : ℚ) < 1 / 2 ^ 50 := by norm_num
      _ = fl (1 / 2 ^ 50) := hflo.symm
      _ ≤ fl m.delivered_ratio_smoothed := hmono hlo
  · calc fl m.delivered_ratio_smoothed ≤ fl (1 - 1 / 2 ^ 53) := hmono hhi
      _ = 1 - 1 / 2 ^ 53 := hfhi
      _ < 1 := by norm_num

/-- A provider record with zero counts and unit delivery rate. -/
def coldMech : MechInfo :=
  { id := "m2", address := "0x2", service := ⟨[[("metadata", "0xab")]], []⟩,
    karma := 0, received_requests := 0, self_delivered := 0,
    max_delivery_rate := 1, relevant_tools := ∅ }

/-- Claim C7 (witness): the amended bounds at the cold-start record with
zero counts, instantiated with the identity rounding (which is monotone and
fixes every representable double). -/
theorem claim_C7_witness :
    0 < MechInfo.delivered_ratio_smoothed coldMech ∧
    MechInfo.delivered_ratio_smoothed coldMech < 1 :=
  claim_C7_amended (fun q => q) monotone_id (fun _ _ => rfl) coldMech
    (by norm_num [coldMech]) (by norm_num [coldMech]) (by norm_num [coldMech])

/-! ## Claim C8: the delivery-rate metric -/

/-- A provider record carrying the dataclass default `max_delivery_rate = 0`. -/
def zeroRateMech : MechInfo :=
  { id := "m3", address := "0x3", service := ⟨[], []⟩, karma := 0,
    received_requests := 0, self_delivered := 0, max_delivery_rate := 0,
    relevant_tools := ∅ }

/-- Claim C8 (counterexample): the claim asserts the metric's evaluation
never hits an error branch, but at the dataclass default
`max_delivery_rate = 0` the evaluation of `math.log(0)` raises
`ValueError`, so the metric hits the error branch (before the int-to-double
conversion is even consulted; the exact conversion instance is used). -/
theorem claim_C8_counterexample :
    zeroRateMech.max_delivery_rate = 0 ∧
    zeroRateMech.delivery_rate_metric (fun n => (n : ℚ)) = none := by
  constructor
  · rfl
  · simp [MechInfo.delivery_rate_metric, mathLog, zeroRateMech]

/-- Claim C8 (amended): for every int-to-double conversion `flInt` (monotone
and fixing representable doubles, as IEEE round-to-nearest is) and every
record with a positive integer `max_delivery_rate`, the metric evaluates
without hitting the error branch to a value in the half-open interval
`(0, 1]`; and it is strictly decreasing across rates up to `2 ^ 20`, where
the conversion is exact and the metric gaps (at least about `4 * 10 ^ (-9)`)
dominate binary64 rounding. It is not strictly decreasing on all rates: the
conversion collapses wei-scale rates such as `10 ^ 18` and `10 ^ 18 + 1`
(one ulp there is 128) to the same double, giving equal metrics. -/
theorem claim_C8_amended (flInt : Int → ℚ) (hmono : Monotone flInt)
    (hfix : ∀ n : Int, DoubleRep (n : ℚ) → flInt n = (n : ℚ))
    (m : MechInfo) (h : 1 ≤ m.max_delivery_rate) :
    ∃ v : ℝ, m.delivery_rate_metric flInt = some v ∧ 0 < v ∧ v ≤ 1 ∧
      ∀ (m2 : MechInfo) (v2 : ℝ),
        m.max_delivery_rate < m2.max_delivery_rate →
        m2.max_delivery_rate ≤ 2 ^ 20 →
        m2.delivery_rate_metric flInt = some v2 → v2 < v := by
  have hpos : (0 : Int) < m.max_delivery_rate := by omega
  have hone : flInt 1 = 1 := by
    have hd : DoubleRep ((1 : Int) : ℚ) := doubleRep_int 1 (by norm_num)
    have := hfix 1 hd
    simpa using this
  have hge1 : (1 : ℚ) ≤ flInt m.max_delivery_rate := by
    calc (1 : ℚ) = flInt 1 := hone.symm
      _ ≤ flInt m.max_delivery_rate := hmono h
  have hcast : (1 : ℝ) ≤ ((flInt m.max_delivery_rate : ℚ) : ℝ) := by exact_mod_cast hge1
  have hlog : 0 ≤ Real.log ((flInt m.max_delivery_rate : ℚ) : ℝ) := Real.log_nonneg hcast
  have hden : (0 : ℝ) < 1 + Real.log ((flInt m.max_delivery_rate : ℚ) : ℝ) := by linarith
  refine ⟨1 / (1 + Real.log ((flInt m.max_delivery_rate : ℚ) : ℝ)), ?_, ?_, ?_, ?_⟩
  · simp [MechInfo.delivery_rate_metric, mathLog, hpos]
  · positivity
  · rw [div_le_one hden]
    linarith
  · intro m2 v2 hlt hsmall hev
    have hpos2 : (0 : Int) < m2.max_delivery_rate := by omega
    have hr2 : m2.max_delivery_rate < 2 ^ 53 :=
      lt_of_le_of_lt hsmall (by norm_num)
    have hr1 : m.max_delivery_rate < 2 ^ 53 := lt_trans hlt hr2
    have hfixm : flInt m.max_delivery_rate = (m.max_delivery_rate : ℚ) := by
      apply hfix
      apply doubleRep_int
      rw [abs_of_nonneg (by linarith)]
      exact hr1
    have hfixm2 : flInt m2.max_delivery_rate = (m2.max_delivery_rate : ℚ) := by
      apply hfix
      apply doubleRep_int
      rw [abs_of_nonneg (by linarith)]
      exact hr2
    have hev2 : m2.delivery_rate_metric flInt =
        some (1 / (1 + Real.log ((flInt m2.max_delivery_rate : ℚ) : ℝ))) := by
      simp [MechInfo.delivery_rate_metric, mathLog, hpos2]
    have hv2 : v2 = 1 / (1 + Real.log ((flInt m2.max_delivery_rate : ℚ) : ℝ)) := by
      rw [hev] at hev2
      exact Option.some_injective _ hev2
    have hloglt : Real.log ((flInt m.max_delivery_rate : ℚ) : ℝ) <
        Real.log ((flInt m2.max_delivery_rate : ℚ) : ℝ) := by
      rw [hfixm, hfixm2]
      apply Real.log_lt_log
      · exact_mod_cast hpos
      · exact_mod_cast hlt
    rw [hv2]
    apply one_div_lt_one_div_of_lt hden
    linarith

/-- Claim C8 (witness): the amended statement instantiated with the exact
conversion (monotone, fixing all integers) at the unit-rate record, whose
metric is defined and lies in `(0, 1]`. -/
theorem claim_C8_witness :
    ∃ v : ℝ, coldMech.delivery_rate_metric (fun n => (n : ℚ)) = some v ∧ 0 < v ∧ v ≤ 1 ∧
      ∀ (m2 : MechInfo) (v2 : ℝ),
        coldMech.max_delivery_rate < m2.max_delivery_rate →
        m2.max_delivery_rate ≤ 2 ^ 20 →
        m2.delivery_rate_metric (fun n => (n : ℚ)) = some v2 → v2 < v :=
  claim_C8_amended (fun n => (n : ℚ)) Int.cast_mono
    (fun _ _ => rfl) coldMech (by norm_num [coldMech])

/-! ## Claim C2: the provider ordering -/

/-- The machine epsilon is positive. -/
lemma MACHINE_EPS_pos : 0 < MACHINE_EPS := by
  rw [MACHINE_EPS]
  norm_num

/-- The service used by the ordering counterexample records: non-empty
metadata, no deliveries (hence zero service liveness). -/
def cexService : Service := ⟨[[("metadata", "0xab")]], []⟩

/-- A family of provider records with unit delivery rate, no deliveries and
a received count of `9 * 10 ^ 9 - 9`, so that the score is an affine
function of the `self_delivered` count with steps of `5 * 10 ^ -11`,
twentieths of the machine epsilon. -/
def cexMech (sd k : Int) : MechInfo :=
  { id := "m4", address := "0x4", service := cexService, karma := k,
    received_requests := 8999999991, self_delivered := sd,
    max_delivery_rate := 1, relevant_tools := ∅ }

/-- Evaluation of the score of the counterexample family. -/
lemma score_cexMech (now sd k : Int) :
    score now (cexMech sd k) =
      some (1 / 10 + ((sd : ℝ) + 8) / (2 * 10 ^ 10)) := by
  have hdrm : (cexMech sd k).delivery_rate_metric (fun n => (n : ℚ)) = some 1 := by
    have h1 : (cexMech sd k).max_delivery_rate = 1 := rfl
    simp only [MechInfo.delivery_rate_metric, mathLog, h1]
    norm_num
  have hlive : (cexMech sd k).liveness now = 0 := by
    have hrr : (cexMech sd k).received_requests = 8999999991 := rfl
    have hsvc : (cexMech sd k).service = cexService := rfl
    rw [MechInfo.liveness, hrr, hsvc]
    norm_num
    rfl
  have hratio : (cexMech sd k).delivered_ratio_smoothed =
      ((sd : ℚ) + 8) / 9000000000 := by
    have hrr : (cexMech sd k).received_requests = 8999999991 := rfl
    have hsd : (cexMech sd k).self_delivered = sd := rfl
    rw [MechInfo.delivered_ratio_smoothed, hrr, hsd,
        LAPLACE_SMOOTHING_ALPHA, LAPLACE_SMOOTHING_BETA]
    norm_num
  simp only [score, hdrm, hlive, hratio, Option.map_some,
    DELIVERY_RATE_METRIC_WEIGHT, LIVENESS_METRIC_WEIGHT,
    DELIVERED_RATIO_METRIC_WEIGHT]
  push_cast
  field_simp
  ring

/-- Claim C2 (counterexample): the ordering is not transitive, hence not a
strict weak order. With scores `s(sd) = 1/10 + (sd+8) * 5e-11`, the record
with `sd = 0, karma = 5` precedes `sd = 25, karma = 0` through the score
branch (gap `1.25e-9 ≥ eps`), which precedes `sd = 10, karma = 1` through
the karma branch (gap `7.5e-10 < eps`), yet the first does not precede the
third: their gap `5e-10` is below epsilon and karma 5 is not below karma 1. -/
theorem claim_C2_counterexample :
    mechLt 0 (cexMech 0 5) (cexMech 25 0) ∧
    mechLt 0 (cexMech 25 0) (cexMech 10 1) ∧
    ¬ mechLt 0 (cexMech 0 5) (cexMech 10 1) := by
  have e0 := score_cexMech 0 0 5
  have e25 := score_cexMech 0 25 0
  have e10 := score_cexMech 0 10 1
  refine ⟨⟨_, _, e0, e25, Or.inr ⟨?_, ?_⟩⟩, ⟨_, _, e25, e10, Or.inl ⟨?_, ?_⟩⟩, ?_⟩
  · rw [not_lt, MACHINE_EPS, abs_of_nonpos (by push_cast; norm_num)]
    push_cast
    norm_num
  · push_cast
    norm_num
  · rw [MACHINE_EPS, abs_of_nonneg (by push_cast; norm_num)]
    push_cast
    norm_num
  · norm_num [cexMech]
  · rintro ⟨sa, sc, ha, hc, hcase⟩
    rw [e0] at ha
    rw [e10] at hc
    have hsa := (Option.some_injective _ ha).symm
    have hsc := (Option.some_injective _ hc).symm
    rcases hcase with ⟨_, hk⟩ | ⟨habs, _⟩
    · have hk5 : (5 : Int) < 1 := by simp [cexMech] at hk
      omega
    · apply habs
      rw [hsa, hsc, MACHINE_EPS, abs_of_nonpos (by push_cast; norm_num)]
      push_cast
      norm_num

/-- Claim C2 (amended): the ordering is not a strict weak order in general
(see the counterexample), but: it is transitive whenever both hypotheses
hold through the score branch (score gaps of at least the machine epsilon);
records whose scores are epsilon-equal are ordered exactly by karma, the
higher karma being the greater record; and the comparison is irreflexive, so
fully equal records are never reordered and the order is deterministic. -/
theorem claim_C2_amended :
    (∀ (now : Int) (a b c : MechInfo) (sa sb sc : ℝ),
        score now a = some sa → score now b = some sb → score now c = some sc →
        ¬ |sa - sb| < MACHINE_EPS → sa < sb →
        ¬ |sb - sc| < MACHINE_EPS → sb < sc →
        mechLt now a c) ∧
    (∀ (now : Int) (a b : MechInfo) (sa sb : ℝ),
        score now a = some sa → score now b = some sb →
        |sa - sb| < MACHINE_EPS → (mechLt now a b ↔ a.karma < b.karma)) ∧
    (∀ (now : Int) (a : MechInfo), ¬ mechLt now a a) := by
  refine ⟨?_, ?_, ?_⟩
  · intro now a b c sa sb sc ha hb hc hab1 hab2 hbc1 hbc2
    have h1 : MACHINE_EPS ≤ |sa - sb| := not_lt.mp hab1
    have h2 : MACHINE_EPS ≤ |sb - sc| := not_lt.mp hbc1
    rw [abs_of_neg (by linarith)] at h1
    rw [abs_of_neg (by linarith)] at h2
    have heps := MACHINE_EPS_pos
    refine ⟨sa, sc, ha, hc, Or.inr ⟨?_, by linarith⟩⟩
    rw [not_lt]
    apply le_abs.mpr
    right
    linarith
  · intro now a b sa sb ha hb habs
    constructor
    · rintro ⟨sa2, sb2, ha2, hb2, h⟩
      rw [ha] at ha2
      rw [hb] at hb2
      have hsa : sa = sa2 := Option.some_injective _ ha2
      have hsb : sb = sb2 := Option.some_injective _ hb2
      rcases h with ⟨_, hk⟩ | ⟨hnabs, _⟩
      · exact hk
      · rw [← hsa, ← hsb] at hnabs
        exact absurd habs hnabs
    · intro hk
      exact ⟨sa, sb, ha, hb, Or.inl ⟨habs, hk⟩⟩
  · intro now a
    rintro ⟨sa, sb, ha, hb, h⟩
    rw [ha] at hb
    have hab : sa = sb := Option.some_injective _ hb
    subst hab
    rcases h with ⟨_, hk⟩ | ⟨_, hlt⟩
    · exact lt_irrefl _ hk
    · exact lt_irrefl _ hlt

/-- Claim C2 (witness): the score-branch transitivity applied along the
chain `sd = 0, 25, 50` (each score gap is `1.25e-9`, at least epsilon), and
irreflexivity at a concrete record. -/
theorem claim_C2_witness :
    mechLt 0 (cexMech 0 0) (cexMech 50 0) ∧ ¬ mechLt 0 (cexMech 0 0) (cexMech 0 0) := by
  constructor
  · apply claim_C2_amended.1 0 (cexMech 0 0) (cexMech 25 0) (cexMech 50 0)
      _ _ _ (score_cexMech 0 0 0) (score_cexMech 0 25 0) (score_cexMech 0 50 0)
    · rw [not_lt, MACHINE_EPS, abs_of_nonpos (by push_cast; norm_num)]
      push_cast
      norm_num
    · push_cast
      norm_num
    · rw [not_lt, MACHINE_EPS, abs_of_nonpos (by push_cast; norm_num)]
      push_cast
      norm_num
    · push_cast
      norm_num
  · exact claim_C2_amended.2.2 0 (cexMech 0 0)

/-! ## Claim C9: wire-format round trips -/

/-- A pointwise inverse of an encoding, mapped over a list, recovers the
list. -/
lemma mapM_map_roundtrip {α β : Type} (f : α → β) (g : β → Option α)
    (l : List α) (h : ∀ x ∈ l, g (f x) = some x) :
    (l.map f).mapM g = some l := by
  induction l with
  | nil => rfl
  | cons x xs ih =>
    simp only [List.map_cons, List.mapM_cons]
    rw [h x (List.mem_cons_self x xs), ih (fun y hy => h y (List.mem_cons_of_mem x hy))]
    rfl

/-- Decoding inverts the encoding of a string dictionary. -/
lemma decodeDict_encodeDict (d : List (String × String)) :
    decodeDict (encodeDict d) = some d :=
  mapM_map_roundtrip _ _ d (fun kv _ => by cases kv; rfl)

/-- Decoding inverts the encoding of a nested subgraph item. -/
lemma decodeNested_encodeNested (n : NestedSubgraphItemType) :
    decodeNested (encodeNested n) = some n :=
  mapM_map_roundtrip _ _ n (fun d _ => decodeDict_encodeDict d)

/-- Decoding inverts the encoding of a `Service`. -/
lemma decodeService_encodeService (s : Service) :
    decodeService (encodeService s) = some s := by
  obtain ⟨m, d⟩ := s
  have h1 : (encodeService ⟨m, d⟩).getField "metadata" = some (encodeNested m) := rfl
  have h2 : (encodeService ⟨m, d⟩).getField "deliveries" = some (encodeNested d) := rfl
  simp [decodeService, h1, h2, decodeNested_encodeNested]

/-- Decoding inverts the encoding of the tool set. -/
lemma decodeTools_encodeTools (ts : Finset String) :
    decodeTools (encodeTools ts) = some ts := by
  show (((ts.sort (fun a b => a ≤ b)).map JVal.s).mapM JVal.asStr).map List.toFinset =
    some ts
  rw [mapM_map_roundtrip JVal.s JVal.asStr _ (fun x _ => rfl)]
  simp

/-- With absent camelCase inputs (their default `0`), the conversion loop
leaves the snake_case counts unchanged. -/
lemma postInitCounts_no_camel (rr sd rate : Int) :
    postInitCounts rr sd rate 0 0 0 = (rr, sd, rate) := by
  unfold postInitCounts
  split_ifs <;> simp_all

/-- Decoding inverts the encoding of a `MechInfo` record. -/
lemma decodeMechInfo_encodeMechInfo (m : MechInfo) :
    decodeMechInfo (encodeMechInfo m) = some m := by
  obtain ⟨mid, maddr, msvc, mk, mrr, msd, mrate, mtools⟩ := m
  have hid : (encodeMechInfo ⟨mid, maddr, msvc, mk, mrr, msd, mrate, mtools⟩).getField "id" =
      some (JVal.s mid) := rfl
  have haddr : (encodeMechInfo ⟨mid, maddr, msvc, mk, mrr, msd, mrate, mtools⟩).getField
      "address" = some (JVal.s maddr) := rfl
  have hsvc : (encodeMechInfo ⟨mid, maddr, msvc, mk, mrr, msd, mrate, mtools⟩).getField
      "service" = some (encodeService msvc) := rfl
  have hk : (encodeMechInfo ⟨mid, maddr, msvc, mk, mrr, msd, mrate, mtools⟩).getField
      "karma" = some (JVal.i mk) := rfl
  have hrr : (encodeMechInfo ⟨mid, maddr, msvc, mk, mrr, msd, mrate, mtools⟩).getField
      "received_requests" = some (JVal.i mrr) := rfl
  have hsd : (encodeMechInfo ⟨mid, maddr, msvc, mk, mrr, msd, mrate, mtools⟩).getField
      "self_delivered" = some (JVal.i msd) := rfl
  have hrate : (encodeMechInfo ⟨mid, maddr, msvc, mk, mrr, msd, mrate, mtools⟩).getField
      "max_delivery_rate" = some (JVal.i mrate) := rfl
  have hrrC : (encodeMechInfo ⟨mid, maddr, msvc, mk, mrr, msd, mrate, mtools⟩).getField
      "receivedRequests" = none := rfl
  have hsdC : (encodeMechInfo ⟨mid, maddr, msvc, mk, mrr, msd, mrate, mtools⟩).getField
      "selfDeliveredFromReceived" = none := rfl
  have hrateC : (encodeMechInfo ⟨mid, maddr, msvc, mk, mrr, msd, mrate, mtools⟩).getField
      "maxDeliveryRate" = none := rfl
  have htools : (encodeMechInfo ⟨mid, maddr, msvc, mk, mrr, msd, mrate, mtools⟩).getField
      "relevant_tools" = some (encodeTools mtools) := rfl
  simp [decodeMechInfo, hid, haddr, hsvc, hk, hrr, hsd, hrate, hrrC, hsdC, hrateC,
        htools, getIntOr, getInitVarOr, JVal.asStr, JVal.asInt, pyInt,
        decodeService_encodeService, decodeTools_encodeTools, postInitCounts_no_camel]

/-- Decoding inverts the encoding of the `mechs_info` list. -/
lemma decodeMechsInfo_encodeMechsInfo (l : List MechInfo) :
    decodeMechsInfo (encodeMechsInfo l) = some l :=
  mapM_map_roundtrip _ _ l (fun m _ => decodeMechInfo_encodeMechInfo m)

/-- Decoding inverts the encoding of a `MechMetadata` record. -/
lemma decodeMechMetadata_encodeMechMetadata (m : MechMetadata) :
    decodeMechMetadata (encodeMechMetadata m) = some m := by
  obtain ⟨p, t, n⟩ := m
  rfl

/-- `Optional[str]` survives the JSON round trip. -/
lemma asOptStr_encodeOptStr (o : Option String) :
    (encodeOptStr o).asOptStr = some o := by
  cases o <;> rfl

/-- Integer lists survive the JSON round trip (stated on the accumulator
loop underlying `List.mapM`). -/
lemma mapM_loop_asInt (l : List Int) (acc : List Int) :
    List.mapM.loop JVal.asInt (l.map JVal.i) acc = some (acc.reverse ++ l) := by
  induction l generalizing acc with
  | nil => simp [List.mapM.loop]
  | cons x xs ih =>
    simp [List.mapM.loop, JVal.asInt, ih]

/-- A response whose `response_data` is `None` is serializable, and decoding
inverts its encoding. -/
lemma response_roundtrip (r : MechInteractionResponse) (h : r.response_data = none) :
    ∃ j, encodeMechInteractionResponse r = some j ∧
      decodeMechInteractionResponse j = some r := by
  obtain ⟨rdat, rid, rids, rnum, rnonce, rres, rerr, rresp, rsender⟩ := r
  simp only at h
  subst h
  refine ⟨_, rfl, ?_⟩
  have hj :
      encodeMechInteractionResponse
        ⟨rdat, rid, rids, rnum, rnonce, rres, rerr, none, rsender⟩ =
        some (JVal.obj
          [("data", JVal.s rdat), ("requestId", JVal.i rid),
           ("requestIds", JVal.arr (rids.map JVal.i)),
           ("numRequests", JVal.i rnum), ("nonce", JVal.s rnonce),
           ("result", encodeOptStr rres), ("error", JVal.s rerr),
           ("response_data", JVal.null), ("sender_address", encodeOptStr rsender)]) := rfl
  set j := JVal.obj
    [("data", JVal.s rdat), ("requestId", JVal.i rid),
     ("requestIds", JVal.arr (rids.map JVal.i)),
     ("numRequests", JVal.i rnum), ("nonce", JVal.s rnonce),
     ("result", encodeOptStr rres), ("error", JVal.s rerr),
     ("response_data", JVal.null), ("sender_address", encodeOptStr rsender)] with hjdef
  have h1 : j.getField "data" = some (JVal.s rdat) := rfl
  have h2 : j.getField "requestId" = some (JVal.i rid) := rfl
  have h3 : j.getField "requestIds" = some (JVal.arr (rids.map JVal.i)) := rfl
  have h4 : j.getField "numRequests" = some (JVal.i rnum) := rfl
  have h5 : j.getField "nonce" = some (JVal.s rnonce) := rfl
  have h6 : j.getField "result" = some (encodeOptStr rres) := rfl
  have h7 : j.getField "error" = some (JVal.s rerr) := rfl
  have h8 : j.getField "response_data" = some JVal.null := rfl
  have h9 : j.getField "sender_address" = some (encodeOptStr rsender) := rfl
  simp [decodeMechInteractionResponse, getStrOr, getIntOr, getOptStrOr,
        h1, h2, h3, h4, h5, h6, h7, h8, h9,
        JVal.asStr, JVal.asInt, asOptStr_encodeOptStr, mapM_loop_asInt]

/-- Lists of `None`-data responses are serializable and decoding inverts
their encoding. -/
lemma responses_roundtrip (l : List MechInteractionResponse)
    (h : ∀ r ∈ l, r.response_data = none) :
    ∃ j, encodeMechResponses l = some j ∧ decodeMechResponses j = some l := by
  suffices hs : ∃ vs, l.mapM encodeMechInteractionResponse = some vs ∧
      vs.mapM decodeMechInteractionResponse = some l by
    obtain ⟨vs, hv, hdv⟩ := hs
    refine ⟨JVal.arr vs, ?_, ?_⟩
    · unfold encodeMechResponses
      rw [hv]
      rfl
    · exact hdv
  induction l with
  | nil => exact ⟨[], rfl, rfl⟩
  | cons r rs ih =>
    obtain ⟨j1, hj1, hd1⟩ := response_roundtrip r (h r (List.mem_cons_self r rs))
    obtain ⟨vs, hv, hdv⟩ := ih (fun x hx => h x (List.mem_cons_of_mem r hx))
    refine ⟨j1 :: vs, ?_, ?_⟩
    · rw [List.mapM_cons, hj1, hv]
      rfl
    · rw [List.mapM_cons, hd1, hdv]
      rfl

/-- Claim C9: serializing a `MechInfo`, `MechMetadata` or
`MechInteractionResponse` list to the JSON wire format and parsing it back
yields field-for-field equal records, including the camelCase alias
reconciliation of `__post_init__` and the restoration of the
`relevant_tools` set from its list encoding; responses are serializable
exactly as they occur on the wire, with `response_data` not yet filled in. -/
theorem claim_C9_roundtrip :
    (∀ l : List MechInfo, decodeMechsInfo (encodeMechsInfo l) = some l) ∧
    (∀ l : List MechMetadata, decodeMechRequests (encodeMechRequests l) = some l) ∧
    (∀ l : List MechInteractionResponse, (∀ r ∈ l, r.response_data = none) →
       ∃ j, encodeMechResponses l = some j ∧ decodeMechResponses j = some l) := by
  refine ⟨decodeMechsInfo_encodeMechsInfo, ?_, responses_roundtrip⟩
  intro l
  exact mapM_map_roundtrip _ _ l (fun m _ => decodeMechMetadata_encodeMechMetadata m)

/-- Claim C9 (witness): the three round trips at concrete one-element
lists. -/
theorem claim_C9_witness :
    decodeMechsInfo (encodeMechsInfo [coldMech]) = some [coldMech] ∧
    decodeMechRequests (encodeMechRequests [⟨"p", "t", "n"⟩]) = some [⟨"p", "t", "n"⟩] ∧
    ∃ j, encodeMechResponses [{ nonce := "n1" }] = some j ∧
      decodeMechResponses j = some [{ nonce := "n1" }] := by
  refine ⟨claim_C9_roundtrip.1 [coldMech], claim_C9_roundtrip.2.1 [⟨"p", "t", "n"⟩],
    claim_C9_roundtrip.2.2 [{ nonce := "n1" }] ?_⟩
  intro r hr
  simp only [List.mem_singleton] at hr
  subst hr
  rfl

end MechInteract
